import Mathlib

/-!
Verification of the cross-validation core of a tree-sitter grammar project:
the tree model (`models.Node`), the structural comparator
(`comparator.compare_trees` / `_compare_nodes`) and the two normalizers
(`normalizer.normalize_ts` / `normalize_psi`) together with the static
correspondence tables of `mapping.py`.  Every definition below is a direct
shallow embedding of the corresponding Python function.
-/

namespace CrossVal

/-- `models.Node`: a labeled ordered tree node. -/
inductive Node : Type where
  | mk (name : String) (children : List Node)

/-- The `name` field of a `Node`. -/
def Node.name : Node → String
  | .mk n _ => n

/-- The `children` field of a `Node`. -/
def Node.children : Node → List Node
  | .mk _ cs => cs

mutual

/-- Number of nodes in a tree (a measure used for termination bookkeeping). -/
def Node.size : Node → Nat
  | .mk _ cs => 1 + sizeL cs

/-- Total number of nodes in a forest. -/
def sizeL : List Node → Nat
  | [] => 0
  | c :: cs => Node.size c + sizeL cs

end

theorem Node.size_pos (t : Node) : 1 ≤ t.size := by
  cases t with
  | mk n cs => simp [Node.size]

theorem Node.size_mk (n : String) (cs : List Node) :
    Node.size (.mk n cs) = 1 + sizeL cs := rfl

theorem sizeL_cons (c : Node) (cs : List Node) :
    sizeL (c :: cs) = Node.size c + sizeL cs := rfl

/-- `comparator.Status`. -/
inductive Status : Type where
  | MATCH
  | MISMATCH
  | TS_PARSE_ERROR
  | PSI_PARSE_ERROR
deriving DecidableEq, Repr

/-- `comparator.DiffKind`. -/
inductive DiffKind : Type where
  | NAME_MISMATCH
  | MISSING_CHILD
  | EXTRA_CHILD
  | CHILD_COUNT_MISMATCH
deriving DecidableEq, Repr, BEq

/-- `comparator.Difference`: one structural difference. -/
structure Difference : Type where
  path : String
  expected : String
  actual : String
  kind : DiffKind
deriving DecidableEq, Repr

instance : LawfulBEq DiffKind where
  eq_of_beq := by intro a b h; revert h; cases a <;> cases b <;> decide
  rfl := by intro a; cases a <;> rfl

/-- `comparator.CompareResult`. -/
structure CompareResult : Type where
  status : Status
  differences : List Difference
deriving DecidableEq, Repr

/-- The path for the current `_compare_nodes` call:
`f"{path} > {psi_node.name}" if path else psi_node.name`. -/
def currentPath (p : String) (r : Node) : String :=
  if p = "" then r.name else p ++ " > " ++ r.name

mutual

/-- `comparator._compare_nodes`, returning the list of differences it appends
to the accumulator (in append order): name mismatch, child-count mismatch,
pairwise child comparisons, extra children, missing children. -/
def compareNodes : Node → Node → String → List Difference
  | .mk cn ccs, .mk rn rcs, p =>
    let cp := currentPath p (.mk rn rcs)
    (if cn = rn then []
     else [⟨cp, rn, cn, .NAME_MISMATCH⟩])
    ++ (if ccs.length = rcs.length then []
        else [⟨cp, toString rcs.length, toString ccs.length, .CHILD_COUNT_MISMATCH⟩])
    ++ compareChildren ccs rcs cp
    ++ ((ccs.drop (min ccs.length rcs.length)).enumFrom (min ccs.length rcs.length)).map
        (fun ic => ⟨cp ++ " > [child " ++ toString ic.1 ++ "]", "(absent)", ic.2.name, .EXTRA_CHILD⟩)
    ++ ((rcs.drop (min ccs.length rcs.length)).enumFrom (min ccs.length rcs.length)).map
        (fun ic => ⟨cp ++ " > [child " ++ toString ic.1 ++ "]", ic.2.name, "(absent)", .MISSING_CHILD⟩)

/-- The pairwise recursion of `_compare_nodes` over indices
`0..min(len(ts_children), len(psi_children))-1`. -/
def compareChildren : List Node → List Node → String → List Difference
  | c :: cs, r :: rs, cp => compareNodes c r cp ++ compareChildren cs rs cp
  | _, _, _ => []

end

/-- `comparator.compare_trees`. -/
def compareTrees : Option Node → Option Node → CompareResult
  | none, _ => ⟨.TS_PARSE_ERROR, []⟩
  | some _, none => ⟨.PSI_PARSE_ERROR, []⟩
  | some c, some r =>
    let ds := compareNodes c r ""
    if ds = [] then ⟨.MATCH, []⟩ else ⟨.MISMATCH, ds⟩

/-- `mapping.TS_TO_PSI`: `some (some t)` is an entry with value `t`,
`some none` an entry whose value is Python's `None` ("no direct equivalent"),
`none` a name that is not a key of the dict. -/
def tsToPsi : String → Option (Option String)
  | "source_file" => some (some "KtFile")
  | "package_header" => some (some "PACKAGE_DIRECTIVE")
  | "import_list" => some (some "IMPORT_LIST")
  | "import_header" => some (some "IMPORT_DIRECTIVE")
  | "import_alias" => some (some "IMPORT_ALIAS")
  | "wildcard_import" => some none
  | "class_declaration" => some (some "CLASS")
  | "class_body" => some (some "CLASS_BODY")
  | "class_parameter" => some (some "VALUE_PARAMETER")
  | "companion_object" => some (some "OBJECT_DECLARATION")
  | "object_declaration" => some (some "OBJECT_DECLARATION")
  | "object_literal" => some (some "OBJECT_LITERAL")
  | "enum_class_body" => some (some "CLASS_BODY")
  | "enum_entry" => some (some "ENUM_ENTRY")
  | "type_alias" => some (some "TYPEALIAS")
  | "primary_constructor" => some (some "PRIMARY_CONSTRUCTOR")
  | "secondary_constructor" => some (some "SECONDARY_CONSTRUCTOR")
  | "constructor_delegation_call" => some (some "CONSTRUCTOR_DELEGATION_CALL")
  | "constructor_invocation" => some none
  | "function_declaration" => some (some "FUN")
  | "function_body" => some (some "BLOCK")
  | "function_value_parameters" => some (some "VALUE_PARAMETER_LIST")
  | "parameter" => some (some "VALUE_PARAMETER")
  | "parameter_with_optional_type" => some (some "VALUE_PARAMETER")
  | "getter" => some (some "PROPERTY_ACCESSOR")
  | "setter" => some (some "PROPERTY_ACCESSOR")
  | "anonymous_function" => some (some "FUN")
  | "property_declaration" => some (some "PROPERTY")
  | "property_delegate" => some (some "PROPERTY_DELEGATE")
  | "type_parameters" => some (some "TYPE_PARAMETER_LIST")
  | "type_parameter" => some (some "TYPE_PARAMETER")
  | "type_arguments" => some (some "TYPE_ARGUMENT_LIST")
  | "type_projection" => some (some "TYPE_PROJECTION")
  | "user_type" => some (some "USER_TYPE")
  | "function_type" => some (some "FUNCTION_TYPE")
  | "function_type_parameters" => some (some "VALUE_PARAMETER_LIST")
  | "nullable_type" => some (some "NULLABLE_TYPE")
  | "not_nullable_type" => some none
  | "parenthesized_type" => some (some "PARENTHESIZED")
  | "parenthesized_user_type" => some none
  | "type_constraints" => some (some "TYPE_CONSTRAINT_LIST")
  | "type_constraint" => some (some "TYPE_CONSTRAINT")
  | "receiver_type" => some (some "FUNCTION_TYPE_RECEIVER")
  | "delegation_specifier" => some none
  | "explicit_delegation" => some (some "DELEGATED_SUPER_TYPE_ENTRY")
  | "type_identifier" => some none
  | "simple_identifier" => some none
  | "identifier" => some none
  | "modifiers" => some (some "MODIFIER_LIST")
  | "class_modifier" => some none
  | "member_modifier" => some none
  | "visibility_modifier" => some none
  | "function_modifier" => some none
  | "property_modifier" => some none
  | "inheritance_modifier" => some none
  | "parameter_modifier" => some none
  | "parameter_modifiers" => some none
  | "platform_modifier" => some none
  | "reification_modifier" => some none
  | "variance_modifier" => some none
  | "type_modifiers" => some none
  | "type_parameter_modifiers" => some none
  | "type_projection_modifiers" => some none
  | "annotation" => some (some "ANNOTATION_ENTRY")
  | "file_annotation" => some (some "FILE_ANNOTATION_LIST")
  | "use_site_target" => some (some "ANNOTATION_TARGET")
  | "call_expression" => some (some "CALL_EXPRESSION")
  | "call_suffix" => some none
  | "navigation_expression" => some (some "DOT_QUALIFIED_EXPRESSION")
  | "navigation_suffix" => some none
  | "indexing_expression" => some (some "ARRAY_ACCESS_EXPRESSION")
  | "indexing_suffix" => some (some "INDICES")
  | "value_arguments" => some (some "VALUE_ARGUMENT_LIST")
  | "value_argument" => some (some "VALUE_ARGUMENT")
  | "spread_expression" => some none
  | "parenthesized_expression" => some (some "PARENTHESIZED")
  | "if_expression" => some (some "IF")
  | "when_expression" => some (some "WHEN")
  | "when_subject" => some none
  | "when_entry" => some (some "WHEN_ENTRY")
  | "when_condition" => some none
  | "try_expression" => some (some "TRY")
  | "catch_block" => some (some "CATCH")
  | "finally_block" => some (some "FINALLY")
  | "jump_expression" => some none
  | "callable_reference" => some (some "CALLABLE_REFERENCE_EXPRESSION")
  | "collection_literal" => some (some "COLLECTION_LITERAL_EXPRESSION")
  | "this_expression" => some (some "THIS_EXPRESSION")
  | "super_expression" => some (some "SUPER_EXPRESSION")
  | "directly_assignable_expression" => some none
  | "assignment" => some none
  | "additive_expression" => some (some "BINARY_EXPRESSION")
  | "multiplicative_expression" => some (some "BINARY_EXPRESSION")
  | "comparison_expression" => some (some "BINARY_EXPRESSION")
  | "equality_expression" => some (some "BINARY_EXPRESSION")
  | "conjunction_expression" => some (some "BINARY_EXPRESSION")
  | "disjunction_expression" => some (some "BINARY_EXPRESSION")
  | "elvis_expression" => some (some "BINARY_EXPRESSION")
  | "range_expression" => some (some "BINARY_EXPRESSION")
  | "infix_expression" => some (some "BINARY_EXPRESSION")
  | "as_expression" => some (some "BINARY_WITH_TYPE")
  | "check_expression" => some (some "IS_EXPRESSION")
  | "prefix_expression" => some (some "PREFIX_EXPRESSION")
  | "postfix_expression" => some (some "POSTFIX_EXPRESSION")
  | "for_statement" => some (some "FOR")
  | "while_statement" => some (some "WHILE")
  | "do_while_statement" => some (some "DO_WHILE")
  | "control_structure_body" => some (some "BLOCK")
  | "range_test" => some (some "WHEN_CONDITION_IN_RANGE")
  | "type_test" => some (some "WHEN_CONDITION_IS_PATTERN")
  | "lambda_literal" => some (some "FUNCTION_LITERAL")
  | "lambda_parameters" => some (some "VALUE_PARAMETER_LIST")
  | "annotated_lambda" => some none
  | "statements" => some none
  | "multi_variable_declaration" => some (some "DESTRUCTURING_DECLARATION")
  | "variable_declaration" => some none
  | "binding_pattern_kind" => some none
  | "string_literal" => some (some "STRING_TEMPLATE")
  | "string_content" => some (some "LITERAL_STRING_TEMPLATE_ENTRY")
  | "interpolated_expression" => some (some "LONG_STRING_TEMPLATE_ENTRY")
  | "interpolated_identifier" => some (some "SHORT_STRING_TEMPLATE_ENTRY")
  | "character_literal" => some (some "CHARACTER_CONSTANT")
  | "character_escape_seq" => some (some "ESCAPE_STRING_TEMPLATE_ENTRY")
  | "integer_literal" => some (some "INTEGER_CONSTANT")
  | "real_literal" => some (some "FLOAT_CONSTANT")
  | "long_literal" => some none
  | "hex_literal" => some (some "INTEGER_CONSTANT")
  | "bin_literal" => some (some "INTEGER_CONSTANT")
  | "unsigned_literal" => some (some "INTEGER_CONSTANT")
  | "boolean_literal" => some (some "BOOLEAN_CONSTANT")
  | "null_literal" => some (some "NULL")
  | "label" => some (some "LABEL")
  | "line_comment" => some none
  | "multiline_comment" => some none
  | "anonymous_initializer" => some (some "CLASS_INITIALIZER")
  | "shebang_line" => some none
  | _ => none

/-- Python's `TS_TO_PSI.get(name)`: `None` both for a missing key and for an
explicit `None` value. -/
def tsGet (s : String) : Option String :=
  (tsToPsi s).bind id

/-- `mapping.SKIP_TS_NODES`. -/
def skipTsNodes : List String :=
  ["simple_identifier", "type_identifier", "identifier",
   "line_comment", "multiline_comment",
   "class_modifier", "member_modifier", "visibility_modifier",
   "function_modifier", "property_modifier", "inheritance_modifier",
   "parameter_modifier", "parameter_modifiers", "platform_modifier",
   "reification_modifier", "variance_modifier", "type_modifiers",
   "type_parameter_modifiers", "type_projection_modifiers",
   "call_suffix", "navigation_suffix", "when_subject",
   "directly_assignable_expression", "binding_pattern_kind",
   "wildcard_import", "shebang_line", "statements", "annotated_lambda",
   "constructor_invocation", "delegation_specifier", "when_condition",
   "jump_expression", "variable_declaration", "assignment",
   "not_nullable_type", "parenthesized_user_type", "spread_expression",
   "long_literal"]

/-- Membership test `node.name in SKIP_TS_NODES`. -/
def skipTs (s : String) : Bool :=
  skipTsNodes.contains s

/-- `mapping.SKIP_PSI_NODES`. -/
def skipPsiNodes : List String :=
  ["TYPE_REFERENCE", "OPERATION_REFERENCE", "REFERENCE_EXPRESSION",
   "SUPER_TYPE_LIST", "SUPER_TYPE_CALL_ENTRY", "SUPER_TYPE_ENTRY",
   "CONSTRUCTOR_CALLEE", "CONSTRUCTOR_DELEGATION_REFERENCE",
   "BODY", "THEN", "ELSE", "LOOP_RANGE", "CONDITION",
   "RETURN", "THROW", "BREAK", "CONTINUE",
   "LAMBDA_EXPRESSION", "LAMBDA_ARGUMENT",
   "LABEL_QUALIFIER", "VALUE_ARGUMENT_NAME",
   "ANNOTATED_EXPRESSION", "ANNOTATION",
   "ENUM_ENTRY_SUPERCLASS_REFERENCE_EXPRESSION", "INITIALIZER_LIST",
   "LABELED_EXPRESSION", "KDOC_SECTION", "CLASS_LITERAL_EXPRESSION",
   "CONTEXT_RECEIVER", "CONTEXT_PARAMETER_LIST", "INTERSECTION_TYPE",
   "DYNAMIC_TYPE"]

/-- Membership test `node.name in SKIP_PSI_NODES`. -/
def skipPsi (s : String) : Bool :=
  skipPsiNodes.contains s

/-- `mapping.WRAPPER_COLLAPSE` as a partial map. -/
def wrapperCollapse : String → Option String
  | "TYPE_REFERENCE" => some "USER_TYPE"
  | "SUPER_TYPE_CALL_ENTRY" => some "CONSTRUCTOR_CALLEE"
  | "CONSTRUCTOR_CALLEE" => some "TYPE_REFERENCE"
  | "LAMBDA_EXPRESSION" => some "FUNCTION_LITERAL"
  | "ANNOTATED_EXPRESSION" => some "*"
  | "LABELED_EXPRESSION" => some "*"
  | _ => none

/-- Loop body of `normalizer._nest_property_accessors`; the accumulator is the
`result` list in reverse (so that `result[-1]` is its head). -/
def nestPAGo : List Node → List Node → List Node
  | acc, [] => acc.reverse
  | p :: t, c :: rest =>
    if c.name = "PROPERTY_ACCESSOR" ∧ p.name = "PROPERTY" then
      nestPAGo (Node.mk "PROPERTY" (p.children ++ [c]) :: t) rest
    else
      nestPAGo (c :: p :: t) rest
  | [], c :: rest => nestPAGo [c] rest

/-- `normalizer._nest_property_accessors`. -/
def nestPropertyAccessors (children : List Node) : List Node :=
  if children.any (fun c => c.name == "PROPERTY_ACCESSOR") then
    nestPAGo [] children
  else
    children

/-- Loop body of `normalizer._inject_value_parameter_list`: `group` is the
current run of `VALUE_PARAMETER` children. -/
def injectVPLGo : List Node → List Node → List Node
  | group, [] =>
    if group.isEmpty then [] else [Node.mk "VALUE_PARAMETER_LIST" group]
  | group, c :: rest =>
    if c.name = "VALUE_PARAMETER" then
      injectVPLGo (group ++ [c]) rest
    else
      (if group.isEmpty then [] else [Node.mk "VALUE_PARAMETER_LIST" group])
        ++ c :: injectVPLGo [] rest

/-- `normalizer._inject_value_parameter_list`. -/
def injectValueParameterList (children : List Node) : List Node :=
  if children.any (fun c => c.name == "VALUE_PARAMETER") then
    injectVPLGo [] children
  else
    children

/-- `normalizer._unwrap_receiver_type`. -/
def unwrapReceiverType (children : List Node) : List Node :=
  if children.any (fun c => c.name == "FUNCTION_TYPE_RECEIVER") then
    children.flatMap (fun c =>
      if c.name = "FUNCTION_TYPE_RECEIVER" then c.children else [c])
  else
    children

/-- `normalizer._flatten_call_expression`. -/
def flattenCallExpression : List Node → List Node
  | [] => []
  | .mk cn ccs :: rest =>
    if cn = "CALL_EXPRESSION" then
      flattenCallExpression ccs ++ rest
    else
      .mk cn ccs :: rest

/-- The set `{"user_type", "nullable_type", "parenthesized_type",
"function_type", "type_identifier"}` used for `check_expression`
disambiguation. -/
def checkTypeChildNames : List String :=
  ["user_type", "nullable_type", "parenthesized_type", "function_type",
   "type_identifier"]

/-- The set `{"USER_TYPE", "NULLABLE_TYPE", "FUNCTION_TYPE", "PARENTHESIZED"}`
of `normalizer._wrap_bare_types_in_value_parameter`. -/
def bareTypeNames : List String :=
  ["USER_TYPE", "NULLABLE_TYPE", "FUNCTION_TYPE", "PARENTHESIZED"]

/-- `normalizer._wrap_bare_types_in_value_parameter`. -/
def wrapBareTypesInValueParameter (children : List Node) : List Node :=
  if children.any (fun c =>
      bareTypeNames.contains c.name && !(c.name == "VALUE_PARAMETER")) then
    if children.any (fun c => c.name == "VALUE_PARAMETER") then
      children
    else
      children.map (fun c =>
        if bareTypeNames.contains c.name then
          Node.mk "VALUE_PARAMETER" [c]
        else c)
  else
    children

/-- `any(c.name == "statements" for c in node.children)`. -/
def hasStatementsChild (orig : List Node) : Bool :=
  orig.any (fun c => c.name == "statements")

/-- `any(c.name not in ("statements", "line_comment", "multiline_comment")
for c in node.children)`. -/
def hasNonCommentChild (orig : List Node) : Bool :=
  orig.any (fun c =>
    !(c.name == "statements") && !(c.name == "line_comment")
      && !(c.name == "multiline_comment"))

/-- Lines 130-140 of `normalizer._normalize_ts_node`: the `SKIP_TS_NODES`
branch (`if mapped:` is Python truthiness, false for `None` and `""`). -/
def tsSkipBranch (nm : String) (ncs : List Node) : Option Node :=
  match ncs with
  | [u] => some u
  | [] => none
  | _ =>
    match tsGet nm with
    | some m => if m = "" then none else some (.mk m ncs)
    | none => none

/-- Lines 144-151 of `normalizer._normalize_ts_node`: the
`mapped_name is None` branch. -/
def tsElideBranch (nm : String) (ncs : List Node) : Option Node :=
  match ncs with
  | [u] => some u
  | [] => none
  | _ => some (.mk nm ncs)

/-- Lines 248-258 of `normalizer._normalize_ts_node`: drop empty
`MODIFIER_LIST` / `VALUE_PARAMETER_LIST`, else build the renamed node. -/
def tsFinal (mapped : String) (ncs : List Node) : Option Node :=
  if mapped = "MODIFIER_LIST" ∧ ncs.isEmpty then none
  else if mapped = "VALUE_PARAMETER_LIST" ∧ ncs.isEmpty then none
  else some (.mk mapped ncs)

/-- Lines 185-246 of `normalizer._normalize_ts_node`: the ordered battery of
child-rewriting rules, then the `function_body` expression-body rule, then
`tsFinal`.  `orig` is the node's original (pre-normalization) child list. -/
def tsRules (mapped nm : String) (orig n3 : List Node) : Option Node :=
  let n4 := if mapped = "PRIMARY_CONSTRUCTOR" ∨ mapped = "PROPERTY_ACCESSOR"
            then injectValueParameterList n3 else n3
  let n5 := if mapped = "FUN" ∨ mapped = "PROPERTY"
            then unwrapReceiverType n4 else n4
  let n6 := if mapped = "CALL_EXPRESSION" then flattenCallExpression n5 else n5
  let n7 := if mapped = "FUNCTION_LITERAL" ∧ n6.isEmpty
            then [Node.mk "BLOCK" []] else n6
  let n8 := if mapped = "CLASS_INITIALIZER" ∧ ¬n7.isEmpty
            then [Node.mk "BLOCK" n7] else n7
  let n9 := if mapped = "OBJECT_LITERAL" ∧ ¬n8.isEmpty
            then [Node.mk "OBJECT_DECLARATION" n8] else n8
  let n10 := if mapped = "VALUE_PARAMETER_LIST"
             then wrapBareTypesInValueParameter n9 else n9
  if mapped = "BLOCK" ∧ nm = "function_body"
      ∧ hasStatementsChild orig = false ∧ hasNonCommentChild orig = true then
    match n10 with
    | [u] => some u
    | [] => none
    | _ => tsFinal mapped n10
  else
    tsFinal mapped n10

/-- Lines 179-258 of `normalizer._normalize_ts_node`: leaf
`DOT_QUALIFIED_EXPRESSION` elision, then the rule battery. -/
def tsAfterBody (mapped nm : String) (orig ncs : List Node) : Option Node :=
  if mapped = "DOT_QUALIFIED_EXPRESSION" ∧ ncs.isEmpty then none
  else tsRules mapped nm orig ncs

/-- `normalizer._normalize_ts_node` from line 124 on, given the node's name,
its original children and their already-normalized versions. -/
def tsPost (nm : String) (orig ncs0 : List Node) : Option Node :=
  let ncs := nestPropertyAccessors ncs0
  if skipTs nm then tsSkipBranch nm ncs
  else
    match tsGet nm with
    | none => tsElideBranch nm ncs
    | some mapped0 =>
      let mapped :=
        if nm = "check_expression" then
          (if orig.any (fun c => checkTypeChildNames.contains c.name)
           then "IS_EXPRESSION" else "BINARY_EXPRESSION")
        else mapped0
      if mapped = "BLOCK" ∧ nm = "control_structure_body"
          ∧ hasStatementsChild orig = false ∧ hasNonCommentChild orig = true then
        match ncs with
        | [u] => some u
        | [] => none
        | _ => tsAfterBody mapped nm orig ncs
      else tsAfterBody mapped nm orig ncs

mutual

/-- `normalizer._normalize_ts_node`. -/
def tsNode : Node → Option Node
  | .mk nm cs => tsPost nm cs (tsChildren cs)

/-- The child-normalization loop of `_normalize_ts_node` (the concatenation
of `_normalize_ts_child` over a child list). -/
def tsChildren : List Node → List Node
  | [] => []
  | .mk cn ccs :: cs =>
    (match tsNode (.mk cn ccs) with
     | some r => [r]
     | none => tsChildren ccs) ++ tsChildren cs

end

/-- `normalizer._normalize_ts_child`: one result node, or the recursively
promoted grandchildren when the node is dropped. -/
def tsChild (c : Node) : List Node :=
  match tsNode c with
  | some r => [r]
  | none => tsChildren c.children

/-- `normalizer.normalize_ts`. -/
def normalizeTs (t : Node) : Option Node :=
  tsNode t

/-- The search loop of the named-target wrapper collapse (lines 429-437 of
`normalizer._normalize_psi_node`): first child named `target`, split out of
the list. -/
def findTarget (target : String) : List Node → Option (List Node × Node × List Node)
  | [] => none
  | c :: rest =>
    if c.name = target then some ([], c, rest)
    else
      match findTarget target rest with
      | some (pre, t, post) => some (c :: pre, t, post)
      | none => none

/-- `normalizer._normalize_psi_node` from line 379 on, given the node's name,
its original children and their already-normalized versions. -/
def psiPost (nm : String) (orig ncs : List Node) : Option Node :=
  if nm = "PACKAGE_DIRECTIVE" ∧ orig.isEmpty then none
  else if nm = "IMPORT_LIST" ∧ ncs.isEmpty then none
  else if nm = "MODIFIER_LIST" ∧ ncs.isEmpty then none
  else if nm = "VALUE_PARAMETER_LIST" ∧ ncs.isEmpty then none
  else if nm = "DOT_QUALIFIED_EXPRESSION"
      ∧ (ncs.filter (fun c => !(c.name == "DOT_QUALIFIED_EXPRESSION"))).isEmpty
    then none
  else if skipPsi nm then
    match ncs with
    | [u] => some u
    | _ => none
  else
    match wrapperCollapse nm with
    | some target =>
      if target = "*" then
        match ncs with
        | [u] => some u
        | _ => some (.mk nm ncs)
      else
        match findTarget target ncs with
        | some (pre, tgt, post) =>
          let others := pre ++ post
          if others.isEmpty then some tgt
          else some (.mk tgt.name (tgt.children ++ others))
        | none => some (.mk nm ncs)
    | none => some (.mk nm ncs)

mutual

/-- `normalizer._normalize_psi_node`. -/
def psiNode : Node → Option Node
  | .mk nm cs => psiPost nm cs (psiChildren cs)

/-- The child-normalization loop of `_normalize_psi_node` (the concatenation
of `_normalize_psi_child` over a child list). -/
def psiChildren : List Node → List Node
  | [] => []
  | .mk cn ccs :: cs =>
    (match psiNode (.mk cn ccs) with
     | some r => [r]
     | none => psiChildren ccs) ++ psiChildren cs

end

/-- `normalizer._normalize_psi_child`. -/
def psiChild (c : Node) : List Node :=
  match psiNode c with
  | some r => [r]
  | none => psiChildren c.children

/-- `normalizer.normalize_psi`. -/
def normalizePsi (t : Node) : Option Node :=
  psiNode t

/-- `tsChildren` is the concatenation of `tsChild` over the list. -/
theorem tsChildren_cons (c : Node) (cs : List Node) :
    tsChildren (c :: cs) = tsChild c ++ tsChildren cs := by
  cases c with
  | mk cn ccs => rfl

/-- `psiChildren` is the concatenation of `psiChild` over the list. -/
theorem psiChildren_cons (c : Node) (cs : List Node) :
    psiChildren (c :: cs) = psiChild c ++ psiChildren cs := by
  cases c with
  | mk cn ccs => rfl

mutual

theorem compareNodes_self : (t : Node) → (p : String) → compareNodes t t p = []
  | .mk n cs, p => by
    simp [compareNodes, compareChildren_self cs]

theorem compareChildren_self : (cs : List Node) → (p : String) →
    compareChildren cs cs p = []
  | [], _ => rfl
  | c :: cs, p => by
    simp [compareChildren, compareNodes_self c, compareChildren_self cs]

end

/-- Claim C1: for every tree `T`, `compare_trees(T, T)` returns a
`CompareResult` with status `MATCH` and an empty differences list. -/
theorem compare_trees_self_match (t : Node) :
    compareTrees (some t) (some t) = ⟨Status.MATCH, []⟩ := by
  simp [compareTrees, compareNodes_self]

/-- Claim C2: `compare_trees(absent, anything)` is `TS_PARSE_ERROR` with an
empty differences list, even when the second argument is also absent, and
`compare_trees(present, absent)` is `PSI_PARSE_ERROR` with an empty list. -/
theorem compare_trees_parse_errors :
    (∀ x : Option Node, compareTrees none x = ⟨Status.TS_PARSE_ERROR, []⟩)
    ∧ (∀ t : Node, compareTrees (some t) none = ⟨Status.PSI_PARSE_ERROR, []⟩) := by
  exact ⟨fun _ => rfl, fun _ => rfl⟩

mutual

/-- Modelled from the spec wording for the name-mismatch rule: one
`NAME_MISMATCH` per corresponding position with differing names, at the
reference-built path, `expected` the reference name and `actual` the
candidate name, with descent continuing into paired children. -/
def specNameMismatches : Node → Node → String → List Difference
  | .mk cn ccs, .mk rn rcs, p =>
    (if cn = rn then []
     else [⟨currentPath p (.mk rn rcs), rn, cn, .NAME_MISMATCH⟩])
    ++ specNameMismatchChildren ccs rcs (currentPath p (.mk rn rcs))

/-- Pairwise extension of `specNameMismatches` to corresponding children. -/
def specNameMismatchChildren : List Node → List Node → String → List Difference
  | c :: cs, r :: rs, cp =>
    specNameMismatches c r cp ++ specNameMismatchChildren cs rs cp
  | _, _, _ => []

end

theorem filter_kind_count_ite (k : DiffKind) (c : Prop) [Decidable c]
    (cp e a : String) (hk : (DiffKind.CHILD_COUNT_MISMATCH == k) = false) :
    (if c then ([] : List Difference)
     else [⟨cp, e, a, DiffKind.CHILD_COUNT_MISMATCH⟩]).filter
      (fun d => d.kind == k) = [] := by
  split
  · rfl
  · simp [List.filter, hk]

theorem filter_kind_extras (k : DiffKind) (cp : String) (l : List (Nat × Node))
    (hk : (DiffKind.EXTRA_CHILD == k) = false) :
    (l.map (fun ic => (⟨cp ++ " > [child " ++ toString ic.1 ++ "]",
        "(absent)", ic.2.name, DiffKind.EXTRA_CHILD⟩ : Difference))).filter
      (fun d => d.kind == k) = [] := by
  induction l with
  | nil => rfl
  | cons a l ih => simp [List.filter_cons, hk, ih]

theorem filter_kind_missing (k : DiffKind) (cp : String) (l : List (Nat × Node))
    (hk : (DiffKind.MISSING_CHILD == k) = false) :
    (l.map (fun ic => (⟨cp ++ " > [child " ++ toString ic.1 ++ "]",
        ic.2.name, "(absent)", DiffKind.MISSING_CHILD⟩ : Difference))).filter
      (fun d => d.kind == k) = [] := by
  induction l with
  | nil => rfl
  | cons a l ih => simp [List.filter_cons, hk, ih]

mutual

theorem filter_name_compareNodes : (c : Node) → (r : Node) → (p : String) →
    (compareNodes c r p).filter (fun d => d.kind == DiffKind.NAME_MISMATCH)
      = specNameMismatches c r p
  | .mk cn ccs, .mk rn rcs, p => by
    have hc := filter_name_compareChildren ccs rcs (currentPath p (.mk rn rcs))
    by_cases h : cn = rn <;>
      simp [compareNodes, specNameMismatches, List.filter_append, h, hc,
            filter_kind_count_ite, filter_kind_extras, filter_kind_missing,
            List.filter]

theorem filter_name_compareChildren : (cs : List Node) → (rs : List Node) →
    (cp : String) →
    (compareChildren cs rs cp).filter (fun d => d.kind == DiffKind.NAME_MISMATCH)
      = specNameMismatchChildren cs rs cp
  | c :: cs, r :: rs, cp => by
    simp only [compareChildren, specNameMismatchChildren, List.filter_append]
    rw [filter_name_compareNodes c r, filter_name_compareChildren cs rs]
  | [], _, _ => by
    simp [compareChildren, specNameMismatchChildren]
  | _ :: _, [], _ => by
    simp [compareChildren, specNameMismatchChildren]

end

/-- Claim C3: for present trees, whenever candidate and reference names at a
corresponding position differ, exactly one `NAME_MISMATCH` is recorded for
that position, with `expected` the reference node's name and `actual` the
candidate node's name, at the path built from reference-side names, and
descent continues into the paired children (captured by the filter of the
full difference list being exactly the positional name-mismatch list);
in particular the nested example yields exactly one `NAME_MISMATCH` with
path `"X > B"`, expected `"B"`, actual `"A"`. -/
theorem name_mismatch_exactness :
    (∀ (c r : Node) (p : String),
      (compareNodes c r p).filter (fun d => d.kind == DiffKind.NAME_MISMATCH)
        = specNameMismatches c r p)
    ∧ compareTrees (some (.mk "X" [.mk "A" []])) (some (.mk "X" [.mk "B" []]))
        = ⟨Status.MISMATCH, [⟨"X > B", "B", "A", .NAME_MISMATCH⟩]⟩ := by
  exact ⟨filter_name_compareNodes, rfl⟩

mutual

/-- Modelled from the spec wording for unmatched children: per comparison
position, one `EXTRA_CHILD` per candidate child beyond the reference's
length (`expected` is `"(absent)"`, `actual` that child's name) and one
`MISSING_CHILD` per reference child beyond the candidate's length, each at
the position's path extended with `" > [child <index>]"` where the index is
the zero-based position of the unmatched child. -/
def specUnmatched : Node → Node → String → List Difference
  | .mk _cn ccs, .mk rn rcs, p =>
    specUnmatchedChildren ccs rcs (currentPath p (.mk rn rcs))
    ++ ((ccs.drop (min ccs.length rcs.length)).enumFrom
          (min ccs.length rcs.length)).map
        (fun ic => ⟨currentPath p (.mk rn rcs) ++ " > [child "
            ++ toString ic.1 ++ "]", "(absent)", ic.2.name, .EXTRA_CHILD⟩)
    ++ ((rcs.drop (min ccs.length rcs.length)).enumFrom
          (min ccs.length rcs.length)).map
        (fun ic => ⟨currentPath p (.mk rn rcs) ++ " > [child "
            ++ toString ic.1 ++ "]", ic.2.name, "(absent)", .MISSING_CHILD⟩)

/-- Pairwise extension of `specUnmatched` to corresponding children. -/
def specUnmatchedChildren : List Node → List Node → String → List Difference
  | c :: cs, r :: rs, cp =>
    specUnmatched c r cp ++ specUnmatchedChildren cs rs cp
  | _, _, _ => []

end

theorem filter_em_name_ite (c : Prop) [Decidable c] (cp e a : String) :
    (if c then ([] : List Difference)
     else [⟨cp, e, a, DiffKind.NAME_MISMATCH⟩]).filter
      (fun d => d.kind == DiffKind.EXTRA_CHILD
        || d.kind == DiffKind.MISSING_CHILD) = [] := by
  split <;> rfl

theorem filter_em_count_ite (c : Prop) [Decidable c] (cp e a : String) :
    (if c then ([] : List Difference)
     else [⟨cp, e, a, DiffKind.CHILD_COUNT_MISMATCH⟩]).filter
      (fun d => d.kind == DiffKind.EXTRA_CHILD
        || d.kind == DiffKind.MISSING_CHILD) = [] := by
  split <;> rfl

theorem filter_em_extras (cp : String) (l : List (Nat × Node)) :
    (l.map (fun ic => (⟨cp ++ " > [child " ++ toString ic.1 ++ "]",
        "(absent)", ic.2.name, DiffKind.EXTRA_CHILD⟩ : Difference))).filter
      (fun d => d.kind == DiffKind.EXTRA_CHILD
        || d.kind == DiffKind.MISSING_CHILD)
    = l.map (fun ic => (⟨cp ++ " > [child " ++ toString ic.1 ++ "]",
        "(absent)", ic.2.name, DiffKind.EXTRA_CHILD⟩ : Difference)) := by
  induction l with
  | nil => rfl
  | cons a l ih => simp [List.filter_cons, ih]

theorem filter_em_missing (cp : String) (l : List (Nat × Node)) :
    (l.map (fun ic => (⟨cp ++ " > [child " ++ toString ic.1 ++ "]",
        ic.2.name, "(absent)", DiffKind.MISSING_CHILD⟩ : Difference))).filter
      (fun d => d.kind == DiffKind.EXTRA_CHILD
        || d.kind == DiffKind.MISSING_CHILD)
    = l.map (fun ic => (⟨cp ++ " > [child " ++ toString ic.1 ++ "]",
        ic.2.name, "(absent)", DiffKind.MISSING_CHILD⟩ : Difference)) := by
  induction l with
  | nil => rfl
  | cons a l ih => simp [List.filter_cons, ih]

mutual

theorem filter_em_compareNodes : (c : Node) → (r : Node) → (p : String) →
    (compareNodes c r p).filter
      (fun d => d.kind == DiffKind.EXTRA_CHILD
        || d.kind == DiffKind.MISSING_CHILD)
      = specUnmatched c r p
  | .mk cn ccs, .mk rn rcs, p => by
    have hc := filter_em_compareChildren ccs rcs (currentPath p (.mk rn rcs))
    simp only [compareNodes, specUnmatched, List.filter_append, hc,
               filter_em_name_ite, filter_em_count_ite, filter_em_extras,
               filter_em_missing, List.nil_append]

theorem filter_em_compareChildren : (cs : List Node) → (rs : List Node) →
    (cp : String) →
    (compareChildren cs rs cp).filter
      (fun d => d.kind == DiffKind.EXTRA_CHILD
        || d.kind == DiffKind.MISSING_CHILD)
      = specUnmatchedChildren cs rs cp
  | c :: cs, r :: rs, cp => by
    simp only [compareChildren, specUnmatchedChildren, List.filter_append]
    rw [filter_em_compareNodes c r, filter_em_compareChildren cs rs]
  | [], _, _ => by
    simp [compareChildren, specUnmatchedChildren]
  | _ :: _, [], _ => by
    simp [compareChildren, specUnmatchedChildren]

end

/-- Claim C4 (counterexample): in the concrete extra-child example the code
produces no difference whose path is `"X[child 1]"` — the extra child is
reported at `"X > [child 1]"` instead. -/
theorem extra_child_path_counterexample :
    ((compareTrees (some (.mk "X" [.mk "A" [], .mk "B" []]))
        (some (.mk "X" [.mk "A" []]))).differences.filter
      (fun d => d.path == "X[child 1]")) = [] := rfl

/-- Claim C4 (amended): exactly one `EXTRA_CHILD` per candidate child beyond
the reference's length (expected `"(absent)"`, actual the child's name) and
one `MISSING_CHILD` per reference child beyond the candidate's length, each
at the position's path extended with `" > [child <index>]"` (so ending in
`"[child <index>]"` with the zero-based index); the concrete example yields
a `CHILD_COUNT_MISMATCH` (expected `"1"`, actual `"2"`) and an `EXTRA_CHILD`
at `"X > [child 1]"` with actual `"B"`. -/
theorem unmatched_child_exactness :
    (∀ (c r : Node) (p : String),
      (compareNodes c r p).filter
        (fun d => d.kind == DiffKind.EXTRA_CHILD
          || d.kind == DiffKind.MISSING_CHILD)
        = specUnmatched c r p)
    ∧ compareTrees (some (.mk "X" [.mk "A" [], .mk "B" []]))
        (some (.mk "X" [.mk "A" []]))
      = ⟨Status.MISMATCH, [⟨"X", "1", "2", .CHILD_COUNT_MISMATCH⟩,
          ⟨"X > [child 1]", "(absent)", "B", .EXTRA_CHILD⟩]⟩ := by
  exact ⟨filter_em_compareNodes, rfl⟩

theorem skipTs_tsGet_none (nm : String) (h : skipTs nm = true) :
    tsGet nm = none := by
  have hall : skipTsNodes.all (fun s => (tsGet s).isNone) = true := by decide
  have hmem : nm ∈ skipTsNodes := List.mem_of_elem_eq_true h
  have hn := List.all_eq_true.mp hall nm hmem
  simpa using hn

theorem skipPsi_not_special (nm : String) (h : skipPsi nm = true) :
    nm ≠ "PACKAGE_DIRECTIVE" ∧ nm ≠ "IMPORT_LIST" ∧ nm ≠ "MODIFIER_LIST"
      ∧ nm ≠ "VALUE_PARAMETER_LIST" ∧ nm ≠ "DOT_QUALIFIED_EXPRESSION" := by
  have hall : skipPsiNodes.all (fun s =>
      !(s == "PACKAGE_DIRECTIVE") && !(s == "IMPORT_LIST")
        && !(s == "MODIFIER_LIST") && !(s == "VALUE_PARAMETER_LIST")
        && !(s == "DOT_QUALIFIED_EXPRESSION")) = true := by decide
  have hmem : nm ∈ skipPsiNodes := List.mem_of_elem_eq_true h
  have hn := List.all_eq_true.mp hall nm hmem
  simp only [Bool.and_eq_true, Bool.not_eq_true', beq_eq_false_iff_ne] at hn
  exact ⟨hn.1.1.1.1, hn.1.1.1.2, hn.1.1.2, hn.1.2, hn.2⟩

/-- With a skip-set name, `psiPost` reduces to the skip branch. -/
theorem psiPost_skip (nm : String) (orig ncs : List Node)
    (h : skipPsi nm = true) :
    psiPost nm orig ncs = (match ncs with
      | [u] => some u
      | _ => none) := by
  obtain ⟨h1, h2, h3, h4, h5⟩ := skipPsi_not_special nm h
  simp [psiPost, h1, h2, h3, h4, h5, h]

/-- A reference skip node whose normalized child count is not exactly one is
elided by `_normalize_psi_node`. -/
theorem psiNode_skip_ne_one (nm : String) (cs : List Node)
    (hskip : skipPsi nm = true) (hlen : (psiChildren cs).length ≠ 1) :
    psiNode (.mk nm cs) = none := by
  show psiPost nm cs (psiChildren cs) = none
  rw [psiPost_skip nm cs (psiChildren cs) hskip]
  rcases hn : psiChildren cs with _ | ⟨a, _ | ⟨b, t⟩⟩
  · rfl
  · rw [hn] at hlen; simp at hlen
  · rfl

/-- Claim C5 (counterexample): `"THEN"` is in the reference skip set and has
no mapped name; with two normalized children, `normalize_psi` elides the
node (returns absent) instead of synthesizing a node retaining the original
name and those children. -/
theorem skip_multi_child_counterexample :
    normalizePsi (.mk "THEN" [.mk "BLOCK" [], .mk "BLOCK" []]) = none
    ∧ normalizePsi (.mk "THEN" [.mk "BLOCK" [], .mk "BLOCK" []])
        ≠ some (.mk "THEN" [.mk "BLOCK" [], .mk "BLOCK" []]) := by
  refine ⟨rfl, ?_⟩
  intro h
  exact Option.noConfusion
    ((Eq.symm (rfl :
      normalizePsi (.mk "THEN" [.mk "BLOCK" [], .mk "BLOCK" []]) = none)).trans h)

/-- Claim C5 (amended): the original-name synthesis fallback applies only to
source-side nodes that are not in the source skip set and whose name is
absent from the rename map; a skip-set node (source side, where every
skip-set member maps to Python `None`, or reference side) with more than
one normalized child is instead elided (`None`) and the child-normalization
helper promotes its children into the parent, so no content is lost. -/
theorem skip_elide_fallback :
    (∀ (nm : String) (cs : List Node),
      tsToPsi nm = none → skipTs nm = false →
      2 ≤ (nestPropertyAccessors (tsChildren cs)).length →
      tsNode (.mk nm cs) = some (.mk nm (nestPropertyAccessors (tsChildren cs))))
    ∧ (∀ (nm : String) (cs : List Node), skipPsi nm = true →
        (psiChildren cs).length ≠ 1 →
        psiNode (.mk nm cs) = none ∧ psiChild (.mk nm cs) = psiChildren cs)
    ∧ (∀ (nm : String) (cs : List Node), skipTs nm = true →
        2 ≤ (nestPropertyAccessors (tsChildren cs)).length →
        tsNode (.mk nm cs) = none ∧ tsChild (.mk nm cs) = tsChildren cs) := by
  refine ⟨?_, ?_, ?_⟩
  · intro nm cs hmap hskip hlen
    have hget : tsGet nm = none := by simp [tsGet, hmap]
    rcases hn : nestPropertyAccessors (tsChildren cs) with _ | ⟨a, _ | ⟨b, t⟩⟩
    · rw [hn] at hlen; simp at hlen
    · rw [hn] at hlen; simp at hlen
    · show tsPost nm cs (tsChildren cs) = _
      simp [tsPost, hskip, hget, hn, tsElideBranch]
  · intro nm cs hskip hlen
    have hnode := psiNode_skip_ne_one nm cs hskip hlen
    refine ⟨hnode, ?_⟩
    show (match psiNode (.mk nm cs) with
      | some r => [r]
      | none => psiChildren (Node.mk nm cs).children) = psiChildren cs
    rw [hnode]
    rfl
  · intro nm cs hskip hlen
    have hget : tsGet nm = none := skipTs_tsGet_none nm hskip
    have hnode : tsNode (.mk nm cs) = none := by
      show tsPost nm cs (tsChildren cs) = none
      rcases hn : nestPropertyAccessors (tsChildren cs) with _ | ⟨a, _ | ⟨b, t⟩⟩
      · rw [hn] at hlen; simp at hlen
      · rw [hn] at hlen; simp at hlen
      · simp [tsPost, hskip, hget, hn, tsSkipBranch]
    refine ⟨hnode, ?_⟩
    show (match tsNode (.mk nm cs) with
      | some r => [r]
      | none => tsChildren (Node.mk nm cs).children) = tsChildren cs
    rw [hnode]
    rfl

/-- Witness for `skip_elide_fallback` at concrete inputs: an unknown source
name with two children is kept under its own name, and a reference skip node
with zero children is elided. -/
theorem skip_elide_fallback_witness :
    tsNode (.mk "mystery_wrapper" [.mk "class_body" [], .mk "class_body" []])
      = some (.mk "mystery_wrapper" [.mk "CLASS_BODY" [], .mk "CLASS_BODY" []])
    ∧ psiNode (.mk "THEN" []) = none := by
  constructor
  · exact skip_elide_fallback.1 "mystery_wrapper"
      [.mk "class_body" [], .mk "class_body" []] rfl rfl (by decide)
  · exact (skip_elide_fallback.2.1 "THEN" [] rfl (by decide)).1

/-- Claim C6: a source-side node whose name maps to the "no direct
equivalent" marker (`None` in `TS_TO_PSI`) and whose normalization yields
exactly one normalized child is replaced entirely by that child. -/
theorem unmapped_single_child_promotion (nm : String) (cs : List Node)
    (u : Node) (hmap : tsToPsi nm = some none)
    (hone : nestPropertyAccessors (tsChildren cs) = [u]) :
    normalizeTs (.mk nm cs) = some u := by
  have hget : tsGet nm = none := by simp [tsGet, hmap]
  show tsPost nm cs (tsChildren cs) = some u
  by_cases hskip : skipTs nm
  · simp [tsPost, hskip, hone, tsSkipBranch]
  · simp [tsPost, hskip, hget, hone, tsElideBranch]

/-- Witness for `unmapped_single_child_promotion`: `statements` maps to
`None` and a single `class_body` child is promoted (renamed `CLASS_BODY`). -/
theorem unmapped_single_child_promotion_witness :
    normalizeTs (.mk "statements" [.mk "class_body" []])
      = some (.mk "CLASS_BODY" []) :=
  unmapped_single_child_promotion "statements" [.mk "class_body" []]
    (.mk "CLASS_BODY" []) rfl rfl

/-- Claim C7 (counterexample): `ANNOTATED_EXPRESSION` is a wrapper-collapse
key with wildcard target, but with zero normalized children it is elided
(`normalize_psi` returns absent), not retained unmodified. -/
theorem wildcard_wrapper_counterexample :
    normalizePsi (.mk "ANNOTATED_EXPRESSION" []) = none
    ∧ normalizePsi (.mk "ANNOTATED_EXPRESSION" [])
        ≠ some (.mk "ANNOTATED_EXPRESSION" []) := by
  refine ⟨rfl, ?_⟩
  intro h
  exact Option.noConfusion
    ((Eq.symm (rfl : normalizePsi (.mk "ANNOTATED_EXPRESSION" []) = none)).trans h)

/-- Claim C7 (amended): for the wildcard wrapper-collapse keys
(`ANNOTATED_EXPRESSION`, `LABELED_EXPRESSION`, which are also in the
reference skip set that is checked first), a node with exactly one
normalized child is replaced by that child, and with zero or multiple
normalized children it is elided (absent), not retained. -/
theorem wildcard_wrapper_behavior (nm : String) (cs : List Node)
    (h : nm = "ANNOTATED_EXPRESSION" ∨ nm = "LABELED_EXPRESSION") :
    normalizePsi (.mk nm cs) = (match psiChildren cs with
      | [u] => some u
      | _ => none) := by
  have hskip : skipPsi nm = true := by
    rcases h with h | h <;> rw [h] <;> rfl
  show psiPost nm cs (psiChildren cs) = _
  exact psiPost_skip nm cs (psiChildren cs) hskip

/-- Witness for `wildcard_wrapper_behavior`: a `LABELED_EXPRESSION` with one
child collapses to that child. -/
theorem wildcard_wrapper_behavior_witness :
    normalizePsi (.mk "LABELED_EXPRESSION" [.mk "BLOCK" []])
      = some (.mk "BLOCK" []) :=
  wildcard_wrapper_behavior "LABELED_EXPRESSION" [.mk "BLOCK" []]
    (Or.inr rfl)

/-- When no child is a `FUNCTION_TYPE_RECEIVER`, splicing is the identity. -/
theorem flatMap_receiver_id (cs : List Node)
    (h : cs.any (fun c => c.name == "FUNCTION_TYPE_RECEIVER") = false) :
    cs.flatMap (fun c =>
      if c.name = "FUNCTION_TYPE_RECEIVER" then c.children else [c]) = cs := by
  induction cs with
  | nil => rfl
  | cons c cs ih =>
    simp only [List.any_cons, Bool.or_eq_false_iff] at h
    simp only [List.flatMap_cons, ih h.2]
    rw [if_neg]
    · rfl
    · simpa using h.1

/-- Claim C8: a `FUNCTION_TYPE_RECEIVER` among the normalized children of a
node mapped to `FUN` or `PROPERTY` is replaced by its own children, while
under a node mapped to `FUNCTION_TYPE` the normalized children are left
untouched; `unwrapReceiverType` splices each receiver wrapper in place and
keeps every other child. -/
theorem receiver_unwrap_context :
    (∀ cs : List Node, normalizeTs (.mk "function_declaration" cs)
      = some (.mk "FUN"
          (unwrapReceiverType (nestPropertyAccessors (tsChildren cs)))))
    ∧ (∀ cs : List Node, normalizeTs (.mk "anonymous_function" cs)
      = some (.mk "FUN"
          (unwrapReceiverType (nestPropertyAccessors (tsChildren cs)))))
    ∧ (∀ cs : List Node, normalizeTs (.mk "property_declaration" cs)
      = some (.mk "PROPERTY"
          (unwrapReceiverType (nestPropertyAccessors (tsChildren cs)))))
    ∧ (∀ cs : List Node, normalizeTs (.mk "function_type" cs)
      = some (.mk "FUNCTION_TYPE" (nestPropertyAccessors (tsChildren cs))))
    ∧ (∀ cs : List Node, unwrapReceiverType cs
      = cs.flatMap (fun c =>
          if c.name = "FUNCTION_TYPE_RECEIVER" then c.children else [c]))
    ∧ normalizeTs (.mk "function_declaration"
        [.mk "receiver_type" [.mk "user_type" []]])
      = some (.mk "FUN" [.mk "USER_TYPE" []])
    ∧ normalizeTs (.mk "function_type"
        [.mk "receiver_type" [.mk "user_type" []]])
      = some (.mk "FUNCTION_TYPE"
          [.mk "FUNCTION_TYPE_RECEIVER" [.mk "USER_TYPE" []]]) := by
  refine ⟨fun cs => rfl, fun cs => rfl, fun cs => rfl, fun cs => rfl,
    ?_, rfl, rfl⟩
  intro cs
  unfold unwrapReceiverType
  by_cases h : cs.any (fun c => c.name == "FUNCTION_TYPE_RECEIVER")
  · rw [if_pos h]
  · rw [if_neg h, flatMap_receiver_id cs (by simpa using h)]

/-- Fuelled operational reading of `_flatten_call_expression`: one unit of
fuel per call, `none` when the fuel runs out. -/
def flattenCallF : Nat → List Node → Option (List Node)
  | 0, _ => none
  | _ + 1, [] => some []
  | f + 1, c :: rest =>
    if c.name = "CALL_EXPRESSION" then
      (flattenCallF f c.children).map (fun l => l ++ rest)
    else
      some (c :: rest)

mutual

/-- Fuelled operational reading of `_normalize_ts_node`: one unit of fuel
per call, outer `none` when the fuel runs out. -/
def tsNodeF : Nat → Node → Option (Option Node)
  | 0, _ => none
  | f + 1, .mk nm cs => (tsChildrenF f cs).map (tsPost nm cs)

/-- Fuelled child-normalization loop of `_normalize_ts_node`. -/
def tsChildrenF : Nat → List Node → Option (List Node)
  | _, [] => some []
  | 0, _ :: _ => none
  | f + 1, c :: cs => do
    let h ← tsChildF f c
    let t ← tsChildrenF f cs
    pure (h ++ t)

/-- Fuelled operational reading of `_normalize_ts_child`. -/
def tsChildF : Nat → Node → Option (List Node)
  | 0, _ => none
  | f + 1, c =>
    match tsNodeF f c with
    | none => none
    | some (some r) => some [r]
    | some none => tsChildrenF f c.children

end

mutual

/-- Fuelled operational reading of `_normalize_psi_node`. -/
def psiNodeF : Nat → Node → Option (Option Node)
  | 0, _ => none
  | f + 1, .mk nm cs => (psiChildrenF f cs).map (psiPost nm cs)

/-- Fuelled child-normalization loop of `_normalize_psi_node`. -/
def psiChildrenF : Nat → List Node → Option (List Node)
  | _, [] => some []
  | 0, _ :: _ => none
  | f + 1, c :: cs => do
    let h ← psiChildF f c
    let t ← psiChildrenF f cs
    pure (h ++ t)

/-- Fuelled operational reading of `_normalize_psi_child`. -/
def psiChildF : Nat → Node → Option (List Node)
  | 0, _ => none
  | f + 1, c =>
    match psiNodeF f c with
    | none => none
    | some (some r) => some [r]
    | some none => psiChildrenF f c.children

end

theorem flattenCallF_agree : ∀ (f : Nat) (cs : List Node), sizeL cs < f →
    flattenCallF f cs = some (flattenCallExpression cs) := by
  intro f
  induction f with
  | zero => intro cs h; omega
  | succ f ih =>
    intro cs h
    cases cs with
    | nil => simp [flattenCallF, flattenCallExpression]
    | cons c rest =>
      rw [sizeL_cons] at h
      have hc := Node.size_pos c
      cases c with
      | mk cn ccs =>
        rw [Node.size_mk] at h hc
        by_cases hn : cn = "CALL_EXPRESSION"
        · have hcc : sizeL ccs < f := by omega
          show (if (Node.mk cn ccs).name = "CALL_EXPRESSION" then
              (flattenCallF f (Node.mk cn ccs).children).map (fun l => l ++ rest)
            else some (Node.mk cn ccs :: rest)) = _
          rw [if_pos (show (Node.mk cn ccs).name = "CALL_EXPRESSION" from hn),
              show (Node.mk cn ccs).children = ccs from rfl, ih ccs hcc]
          simp [flattenCallExpression, hn]
        · show (if (Node.mk cn ccs).name = "CALL_EXPRESSION" then
              (flattenCallF f (Node.mk cn ccs).children).map (fun l => l ++ rest)
            else some (Node.mk cn ccs :: rest)) = _
          rw [if_neg (show ¬(Node.mk cn ccs).name = "CALL_EXPRESSION" from hn)]
          simp [flattenCallExpression, hn]

theorem tsF_agree : ∀ f : Nat,
    (∀ t : Node, 3 * t.size < f → tsNodeF f t = some (tsNode t))
    ∧ (∀ l : List Node, 3 * sizeL l + 2 < f →
        tsChildrenF f l = some (tsChildren l))
    ∧ (∀ t : Node, 3 * t.size + 1 < f → tsChildF f t = some (tsChild t)) := by
  intro f
  induction f with
  | zero => exact ⟨fun t ht => absurd ht (by omega),
      fun l hl => absurd hl (by omega), fun t ht => absurd ht (by omega)⟩
  | succ f ih =>
    obtain ⟨ihN, ihL, ihC⟩ := ih
    refine ⟨?_, ?_, ?_⟩
    · intro t ht
      cases t with
      | mk nm cs =>
        rw [Node.size_mk] at ht
        rw [tsNodeF, ihL cs (by omega)]
        rfl
    · intro l hl
      cases l with
      | nil => rfl
      | cons c cs =>
        rw [sizeL_cons] at hl
        have hc := Node.size_pos c
        rw [tsChildrenF, ihC c (by omega), ihL cs (by omega)]
        rw [tsChildren_cons]
        rfl
    · intro t ht
      cases t with
      | mk nm cs =>
        rw [Node.size_mk] at ht
        rw [tsChildF, ihN (.mk nm cs) (by rw [Node.size_mk]; omega)]
        show (match some (tsNode (.mk nm cs)) with
          | none => none
          | some (some r) => some [r]
          | some none => tsChildrenF f (Node.mk nm cs).children)
          = some (tsChild (.mk nm cs))
        cases h : tsNode (.mk nm cs) with
        | some r => simp [tsChild, h]
        | none =>
          simp only [Node.children]
          rw [ihL cs (by omega)]
          simp only [tsChild, h]
          rfl

theorem psiF_agree : ∀ f : Nat,
    (∀ t : Node, 3 * t.size < f → psiNodeF f t = some (psiNode t))
    ∧ (∀ l : List Node, 3 * sizeL l + 2 < f →
        psiChildrenF f l = some (psiChildren l))
    ∧ (∀ t : Node, 3 * t.size + 1 < f → psiChildF f t = some (psiChild t)) := by
  intro f
  induction f with
  | zero => exact ⟨fun t ht => absurd ht (by omega),
      fun l hl => absurd hl (by omega), fun t ht => absurd ht (by omega)⟩
  | succ f ih =>
    obtain ⟨ihN, ihL, ihC⟩ := ih
    refine ⟨?_, ?_, ?_⟩
    · intro t ht
      cases t with
      | mk nm cs =>
        rw [Node.size_mk] at ht
        rw [psiNodeF, ihL cs (by omega)]
        rfl
    · intro l hl
      cases l with
      | nil => rfl
      | cons c cs =>
        rw [sizeL_cons] at hl
        have hc := Node.size_pos c
        rw [psiChildrenF, ihC c (by omega), ihL cs (by omega)]
        rw [psiChildren_cons]
        rfl
    · intro t ht
      cases t with
      | mk nm cs =>
        rw [Node.size_mk] at ht
        rw [psiChildF, ihN (.mk nm cs) (by rw [Node.size_mk]; omega)]
        show (match some (psiNode (.mk nm cs)) with
          | none => none
          | some (some r) => some [r]
          | some none => psiChildrenF f (Node.mk nm cs).children)
          = some (psiChild (.mk nm cs))
        cases h : psiNode (.mk nm cs) with
        | some r => simp [psiChild, h]
        | none =>
          simp only [Node.children]
          rw [ihL cs (by omega)]
          simp only [psiChild, h]
          rfl

/-- Claim C9: `normalize_ts` and `normalize_psi` (with their child-promoting
helpers and the call-chain flattening rule) terminate on every finite input
tree: the fuelled operational readings, which charge one unit of fuel per
recursive call, never exhaust a fuel budget proportional to the input size
and agree with the recursive definitions (each call strictly descends the
input, so the needed depth is bounded by the tree size). -/
theorem normalization_terminates :
    (∀ t : Node, tsNodeF (3 * t.size + 1) t = some (normalizeTs t))
    ∧ (∀ t : Node, tsChildF (3 * t.size + 2) t = some (tsChild t))
    ∧ (∀ t : Node, psiNodeF (3 * t.size + 1) t = some (normalizePsi t))
    ∧ (∀ t : Node, psiChildF (3 * t.size + 2) t = some (psiChild t))
    ∧ (∀ cs : List Node,
        flattenCallF (sizeL cs + 1) cs = some (flattenCallExpression cs)) := by
  exact ⟨fun t => (tsF_agree (3 * t.size + 1)).1 t (by omega),
    fun t => (tsF_agree (3 * t.size + 2)).2.2 t (by omega),
    fun t => (psiF_agree (3 * t.size + 1)).1 t (by omega),
    fun t => (psiF_agree (3 * t.size + 2)).2.2 t (by omega),
    fun cs => flattenCallF_agree (sizeL cs + 1) cs (by omega)⟩

/-- Claim C10: a reference-side tree whose root is in `SKIP_PSI_NODES` and
does not end up with exactly one normalized child normalizes to absent, so
`compare_trees` reports `PSI_PARSE_ERROR` against any present source tree
even though the reference input parsed successfully. -/
theorem psi_root_skip_parse_error (nm : String) (cs : List Node) (t : Node)
    (hskip : skipPsi nm = true) (hlen : (psiChildren cs).length ≠ 1) :
    normalizePsi (.mk nm cs) = none
    ∧ compareTrees (some t) (normalizePsi (.mk nm cs))
        = ⟨Status.PSI_PARSE_ERROR, []⟩ := by
  have hnone : normalizePsi (.mk nm cs) = none :=
    psiNode_skip_ne_one nm cs hskip hlen
  refine ⟨hnone, ?_⟩
  rw [hnone]
  rfl

/-- Witness for `psi_root_skip_parse_error`: a bare `THEN` root (zero
normalized children) is reported as a reference-side parse error. -/
theorem psi_root_skip_parse_error_witness :
    normalizePsi (.mk "THEN" [.mk "BODY" [], .mk "BODY" []]) = none
    ∧ compareTrees (some (.mk "KtFile" []))
        (normalizePsi (.mk "THEN" [.mk "BODY" [], .mk "BODY" []]))
      = ⟨Status.PSI_PARSE_ERROR, []⟩ :=
  psi_root_skip_parse_error "THEN" [.mk "BODY" [], .mk "BODY" []]
    (.mk "KtFile" []) rfl (by decide)

end CrossVal
